import Mathlib

/-!
Verification development for the EOVSA pipeline calibration routines
(`pipeline_cal.py`): the baseline enumeration `get_bl_order`, the attenuation
corrector `apply_attn_corr`, and the feed-rotation / delay-phase corrector
`unrot`.  Machine floats are modelled by `ℝ`/`ℂ` (frequency values, which are
only compared and floored, by `ℚ`).  In-place numpy array updates are modelled
by folds over the loop ranges that update a cell-indexed function, and the
external gain-state / geometry / calibration providers are modelled as inputs.
Utilities of the repository that are not part of this snapshot (`util.lobe`,
`util.common_val_idx`, `util.nearest_val_idx`) are modelled from the
specification where needed; `nearest_val_idx` enters only through the
time-index map `tmap`, which is kept as an arbitrary parameter.
-/

set_option maxRecDepth 20000

/-- A cell index `(f, k, p, t)` of the cross-correlation array `x`:
frequency, baseline, polarization product, time. -/
abbrev Cell : Type := ℕ × ℕ × ℕ × ℕ

/-- `get_bl_order` (pipeline_cal.py lines 31-42): the order of baseline data
output by a CASPER correlator X engine.  For each `i` in `0..15` and `j`
counting down from `8` to `0`, `k = (i - j) mod 16`; `(k, i)` is appended to
`order1` when `i ≥ k`, else `(i, k)` is appended to `order2`; pairs of
`order2` already present in `order1` are dropped, and the result is `order1`
followed by the filtered `order2`.  The unit argument mirrors the nullary
Python function. -/
def get_bl_order : Unit → List (ℕ × ℕ) := fun _ =>
  let nAnts := 16
  let st :=
    (List.range nAnts).foldl (fun st i =>
      (List.range (nAnts / 2 + 1)).foldl (fun st2 jr =>
        let j := nAnts / 2 - jr
        let k := (i + nAnts - j) % nAnts
        if k ≤ i then (st2.1 ++ [(k, i)], st2.2) else (st2.1, st2.2 ++ [(i, k)]))
        st)
      (([] : List (ℕ × ℕ)), ([] : List (ℕ × ℕ)))
  st.1 ++ st.2.filter (fun o => decide (o ∉ st.1))

/-- The fixed 136-entry baseline order. -/
def blOrder : List (ℕ × ℕ) := get_bl_order ()

/-- The antenna pair of baseline slot `k`. -/
def blPair (k : ℕ) : ℕ × ℕ := blOrder.getD k (0, 0)

/-- numpy's `.astype(int)` on a float array truncates toward zero. -/
def ratTrunc (q : ℚ) : ℤ := if 0 ≤ q then ⌊q⌋ else -⌊-q⌋

/-- Band list entry for a data frequency (line 96):
`blist = (fghz*2 - 1).astype(int) - 1`. -/
def blist (q : ℚ) : ℤ := ratTrunc (q * 2 - 1) - 1

/-- Polarization of the first antenna of the product `p` (lines 101-104):
products 0 (HH) and 2 (HV) take H (0) on antenna `i`, products 1 (VV) and
3 (VH) take V (1). -/
def polI (p : ℕ) : ℕ := if p = 1 ∨ p = 3 then 1 else 0

/-- Polarization of the second antenna of the product `p` (lines 101-104):
products 0 (HH) and 3 (VH) take H (0) on antenna `j`, products 1 (VV) and
2 (HV) take V (1). -/
def polJ (p : ℕ) : ℕ := if p = 1 ∨ p = 2 then 1 else 0

/-- A visibility dataset as produced by `udb_util.readXdata()` (per the
docstrings of `apply_attn_corr` and `unrot`): times and frequencies, the
complex cross-correlation array `x` indexed `[f, bl, pol, t]`, and the
flattened power arrays `px`, `py` indexed `[flat, t]`. -/
structure VisDataset where
  time : List ℚ
  fghz : List ℚ
  nt : ℕ
  x : Cell → ℂ
  px : ℕ → ℕ → ℝ
  py : ℕ → ℕ → ℝ

/-- Source gain state over the dataset's time range, as returned by
`gaincal2.get_gain_state` (external provider): per-antenna, per-gain-time
component tables and the per-antenna / polarization / band attenuator
settings. -/
structure SrcGainState where
  h1 : ℕ → ℕ → ℝ
  h2 : ℕ → ℕ → ℝ
  v1 : ℕ → ℕ → ℝ
  v2 : ℕ → ℕ → ℝ
  dcmattn : ℕ → ℕ → ℤ → ℝ

/-- Reference gain state (lines 70-76): the REFCAL-window gain state with the
four component tables already reduced to their per-antenna medians (the
median acts on external-provider data; the reduced values are this model's
input). -/
structure RefGainState where
  h1 : ℕ → ℝ
  h2 : ℕ → ℝ
  v1 : ℕ → ℝ
  v2 : ℕ → ℝ
  dcmattn : ℕ → ℕ → ℤ → ℝ

/-- Antenna gain in dB (lines 87-90): sum of the two source component tables
minus the two reference component tables plus the attenuator-setting
difference, H components for `p = 0`, V components otherwise. -/
noncomputable def antgain (src : SrcGainState) (ref : RefGainState)
    (i p : ℕ) (b : ℤ) (t : ℕ) : ℝ :=
  if p = 0 then
    src.h1 i t + src.h2 i t - ref.h1 i - ref.h2 i
      + src.dcmattn i 0 b - ref.dcmattn i 0 b
  else
    src.v1 i t + src.v2 i t - ref.v1 i - ref.v2 i
      + src.dcmattn i 1 b - ref.dcmattn i 1 b

/-- One iteration of the `blgain` loop (lines 98-104): baseline slot `k`
receives `10 ** ((antgain[i, pol_i, blist] + antgain[j, pol_j, blist])/20)`
for its four polarization products when both antennas are below 15; other
cells are left as they are. -/
noncomputable def blgainStep (src : SrcGainState) (ref : RefGainState)
    (fghz : List ℚ) (g : Cell → ℝ) (k : ℕ) : Cell → ℝ := fun c =>
  if c.2.1 = k ∧ (blPair k).1 < 15 ∧ (blPair k).2 < 15 ∧ c.2.2.1 < 4 then
    (10 : ℝ) ^
      ((antgain src ref (blPair k).1 (polI c.2.2.1) (blist (fghz.getD c.1 0)) c.2.2.2
        + antgain src ref (blPair k).2 (polJ c.2.2.1) (blist (fghz.getD c.1 0)) c.2.2.2)
        / 20)
  else g c

/-- The baseline-based gain array (line 97 + loop of lines 98-104), starting
from `np.zeros` and indexed `(f, bl, pol, gain-time)`. -/
noncomputable def blgainArr (src : SrcGainState) (ref : RefGainState)
    (fghz : List ℚ) : Cell → ℝ :=
  (List.range 136).foldl (blgainStep src ref fghz) (fun _ => 0)

/-- Antenna linear power gain (lines 106-107, after the axis swap):
`antgainf = 10**(antgain[blist]/10)`, indexed by slot/frequency `s`,
antenna `a`, polarization `p` and gain time. -/
noncomputable def antgainF (src : SrcGainState) (ref : RefGainState)
    (fghz : List ℚ) (s a p tg : ℕ) : ℝ :=
  (10 : ℝ) ^ (antgain src ref a p (blist (fghz.getD s 0)) tg / 10)

/-- `apply_attn_corr` (lines 44-124).  The resolution of the reference time,
the two provider queries and the median reduction (lines 64-84) act on the
external SQL/provider side and are summarized by the `src`/`ref` inputs; the
nearest-gain-time selection `idx` of line 109 (`util.nearest_val_idx`) is the
input map `tmap`.  The function deep-copies the dataset and rescales `x` by
`blgain` and the power / power-squared moments of `px`, `py` (logical layout
`(134, 16, 3, nt)`, flat index `(s*16 + a)*3 + m`) by `antgainf` for the
first 15 antennas. -/
noncomputable def apply_attn_corr (src : SrcGainState) (ref : RefGainState)
    (tmap : ℕ → ℕ) (data : VisDataset) : VisDataset :=
  { data with
    x := fun c =>
      data.x c * ((blgainArr src ref data.fghz (c.1, c.2.1, c.2.2.1, tmap c.2.2.2) : ℝ) : ℂ),
    px := fun fl t =>
      data.px fl t *
        (if fl / 3 % 16 < 15 ∧ fl % 3 = 0 then
          antgainF src ref data.fghz (fl / 48) (fl / 3 % 16) 0 (tmap t)
        else if fl / 3 % 16 < 15 ∧ fl % 3 = 1 then
          antgainF src ref data.fghz (fl / 48) (fl / 3 % 16) 0 (tmap t) ^ 2
        else 1),
    py := fun fl t =>
      data.py fl t *
        (if fl / 3 % 16 < 15 ∧ fl % 3 = 0 then
          antgainF src ref data.fghz (fl / 48) (fl / 3 % 16) 1 (tmap t)
        else if fl / 3 % 16 < 15 ∧ fl % 3 = 1 then
          antgainF src ref data.fghz (fl / 48) (fl / 3 % 16) 1 (tmap t) ^ 2
        else 1) }

/-- The antenna geometry dictionary returned by `get_sql_info` (only the key
that `unrot` reads and writes is modelled): the parallactic-angle table
indexed `[time, antenna]`. -/
structure AzelDict where
  parallacticAngle : ℕ → ℕ → ℝ

/-- The XY delay-phase calibration record of type 11 (lines 180-184): its
frequency axis and the per-antenna phase table `XYphase` indexed
`[antenna, frequency index]`. -/
structure DelayCal where
  fghz : List ℚ
  xyphase : ℕ → ℕ → ℝ

/-- Parallactic-angle correction for equatorial mounts (lines 172-173):
`for i in [8,9,10,12,13]: chi[:,i] -= chi[:,13]`, performed in place on the
caller's array in this order, so antennas 8, 9, 10, 12 subtract the original
angle of antenna 13 and antenna 13 itself (updated last) becomes zero. -/
def chi_correct (chi : ℕ → ℕ → ℝ) : ℕ → ℕ → ℝ :=
  [8, 9, 10, 12, 13].foldl
    (fun c i => fun n a => if a = i then c n a - c n 13 else c n a) chi

/-- Modelled from the spec: `util.lobe` (not part of this snapshot) wraps an
angle into a canonical half-open interval of length `2π` around `0`. -/
noncomputable def lobe (x : ℝ) : ℝ :=
  x - 2 * Real.pi * ((round (x / (2 * Real.pi)) : ℤ) : ℝ)

/-- Rounding a frequency value to 4 decimal digits, as an integer key. -/
def roundKey4 (q : ℚ) : ℤ := round (q * 10000)

/-- Modelled from the spec: `util.common_val_idx` (not part of this snapshot)
matches dataset frequencies to calibration frequencies by value at 4-decimal
precision and returns the aligned index pairs `(fidx1, fidx2)`. -/
def common_val_idx (a b : List ℚ) : List (ℕ × ℕ) :=
  (List.range a.length).filterMap (fun i =>
    ((List.range b.length).find? (fun j => roundKey4 (b.getD j 0) == roundKey4 (a.getD i 0))).map
      (fun j => (i, j)))

/-- Indices of the nonzero entries of the calibration frequency axis
(line 182: `good, = np.where(fghz != 0.)`). -/
def goodFreqIdx (cal : DelayCal) : List ℕ :=
  (List.range cal.fghz.length).filter (fun m => decide (cal.fghz.getD m 0 ≠ 0))

/-- The calibration frequency axis restricted to its nonzero entries
(line 183). -/
def calFghzGood (cal : DelayCal) : List ℚ :=
  (goodFreqIdx cal).map (fun m => cal.fghz.getD m 0)

/-- The delay-phase table restricted to the nonzero calibration frequencies
(line 185: `dph = dph[:,good]`). -/
def dphGood (cal : DelayCal) (a m : ℕ) : ℝ :=
  cal.xyphase a ((goodFreqIdx cal).getD m 0)

/-- The matched index pairs of line 186:
`fidx1, fidx2 = common_val_idx(data['fghz'], fghz, precision=4)`. -/
def matchedPairs (data : VisDataset) (cal : DelayCal) : List (ℕ × ℕ) :=
  common_val_idx data.fghz (calFghzGood cal)

/-- Dataset frequency indices with no calibration match (line 187:
`missing = np.setdiff1d(np.arange(len(data['fghz'])), fidx1)`). -/
def missingIdx (data : VisDataset) (cal : DelayCal) : List ℕ :=
  (List.range data.fghz.length).filter
    (fun f => !((matchedPairs data cal).any (fun pr => pr.1 == f)))

/-- The baseline-correction guard of lines 194 and 207: both antennas below
14 and not an auto-correlation. -/
def corr14 (k : ℕ) : Prop :=
  (blPair k).1 < 14 ∧ (blPair k).2 < 14 ∧ (blPair k).1 ≠ (blPair k).2

instance corr14Dec (k : ℕ) : Decidable (corr14 k) := by
  unfold corr14; exact inferInstance

/-- The delay-phase factor applied to one cell (lines 195-200): for a matched
frequency `f` (with calibration index `fidx2`), polarization product 1 is
multiplied by `exp(i*lobe(dph[i]-dph[j]))`, product 2 by
`exp(i*(-dph[j]+π/2))` and product 3 by `exp(i*(dph[i]-π/2))`; other products
and unmatched frequencies keep factor 1. -/
noncomputable def delayFactor (pairs : List (ℕ × ℕ)) (dph : ℕ → ℕ → ℝ)
    (i j p f : ℕ) : ℂ :=
  match pairs.find? (fun pr => pr.1 == f) with
  | none => 1
  | some pr =>
    if p = 1 then
      Complex.exp (Complex.I * ((lobe (dph i pr.2 - dph j pr.2) : ℝ) : ℂ))
    else if p = 2 then
      Complex.exp (Complex.I * (((-(dph j pr.2) + Real.pi / 2) : ℝ) : ℂ))
    else if p = 3 then
      Complex.exp (Complex.I * (((dph i pr.2 - Real.pi / 2) : ℝ) : ℂ))
    else 1

/-- One iteration of the delay-phase loop over baseline slots (lines
192-200); the in-place `*=` on `data['x']` multiplies the cells of slot `k`
by their delay factor when the slot passes the `i<14, j<14, i≠j` guard. -/
noncomputable def delayStep (pairs : List (ℕ × ℕ)) (dph : ℕ → ℕ → ℝ)
    (g : Cell → ℂ) (k : ℕ) : Cell → ℂ := fun c =>
  if c.2.1 = k ∧ corr14 k then
    g c * delayFactor pairs dph (blPair k).1 (blPair k).2 c.2.2.1 c.1
  else g c

/-- The full delay-phase correction (lines 192-200) as a fold of the loop
body over the 136 baseline slots. -/
noncomputable def delay_correct (pairs : List (ℕ × ℕ)) (dph : ℕ → ℕ → ℝ)
    (x : Cell → ℂ) : Cell → ℂ :=
  (List.range 136).foldl (delayStep pairs dph) x

/-- The right-hand sides of the feed-rotation assignments (lines 208-214) at
one cell, reading the (delay-corrected) snapshot `X`:
`dchi = chi[n,i] - chi[n,j]`, products `(0,2,3,1)` get
`X0*c + X3*s`, `X2*c + X1*s`, `X3*c - X0*s`, `X1*c - X2*s`. -/
noncomputable def rotVal (chi : ℕ → ℕ → ℝ) (X : Cell → ℂ)
    (f k p n : ℕ) : ℂ :=
  if p = 0 then
    X (f, k, 0, n) * ((Real.cos (chi n (blPair k).1 - chi n (blPair k).2) : ℝ) : ℂ)
      + X (f, k, 3, n) * ((Real.sin (chi n (blPair k).1 - chi n (blPair k).2) : ℝ) : ℂ)
  else if p = 2 then
    X (f, k, 2, n) * ((Real.cos (chi n (blPair k).1 - chi n (blPair k).2) : ℝ) : ℂ)
      + X (f, k, 1, n) * ((Real.sin (chi n (blPair k).1 - chi n (blPair k).2) : ℝ) : ℂ)
  else if p = 3 then
    X (f, k, 3, n) * ((Real.cos (chi n (blPair k).1 - chi n (blPair k).2) : ℝ) : ℂ)
      - X (f, k, 0, n) * ((Real.sin (chi n (blPair k).1 - chi n (blPair k).2) : ℝ) : ℂ)
  else if p = 1 then
    X (f, k, 1, n) * ((Real.cos (chi n (blPair k).1 - chi n (blPair k).2) : ℝ) : ℂ)
      - X (f, k, 2, n) * ((Real.sin (chi n (blPair k).1 - chi n (blPair k).2) : ℝ) : ℂ)
  else X (f, k, p, n)

/-- One iteration of the inner feed-rotation loop (lines 205-214) at time
sample `n`: the four products of slot `k` are overwritten from the snapshot
`X` when the slot passes the guard. -/
noncomputable def rotStepK (chi : ℕ → ℕ → ℝ) (X : Cell → ℂ) (n : ℕ)
    (g : Cell → ℂ) (k : ℕ) : Cell → ℂ := fun c =>
  if c.2.1 = k ∧ c.2.2.2 = n ∧ corr14 k then rotVal chi X c.1 c.2.1 c.2.2.1 c.2.2.2
  else g c

/-- The inner loop of lines 205-214 for a fixed time sample. -/
noncomputable def rotStepN (chi : ℕ → ℕ → ℝ) (X : Cell → ℂ)
    (g : Cell → ℂ) (n : ℕ) : Cell → ℂ :=
  (List.range 136).foldl (fun g2 k => rotStepK chi X n g2 k) g

/-- The feed-rotation correction (lines 203-214): `cdata` starts as a deep
copy of the delay-corrected data and the double loop over time samples and
baseline slots overwrites the guarded cells from the snapshot. -/
noncomputable def rotateX (nt : ℕ) (chi : ℕ → ℕ → ℝ) (X : Cell → ℂ) :
    Cell → ℂ :=
  (List.range nt).foldl (rotStepN chi X) X

/-- The message of the `TypeError` raised by line 216. -/
def maskErr : String := "TypeError: unhashable type: numpy.ndarray"

/-- Line 216, `cdata[missing] = np.ma.masked`: `cdata` is a plain dictionary
(`copy.deepcopy` of the dict returned by `readXdata()`, per the docstring)
and `missing` is a numpy integer array.  A numpy array is unhashable, so this
dictionary item assignment raises `TypeError` regardless of the array's
contents (also when `missing` is empty), instead of flagging the `x` rows. -/
def maskStep (_cdata : VisDataset) (_missing : List ℕ) :
    Except String VisDataset :=
  Except.error maskErr

/-- The observable outcome of a call to `unrot`: the caller's dataset and
parallactic-angle array after the call (both are written in place), the
corrected copy built by lines 203-214, and the value returned (or the
exception raised) by the function. -/
structure UnrotOutcome where
  dataAfter : VisDataset
  azelAfter : ℕ → ℕ → ℝ
  cdata : VisDataset
  result : Except String VisDataset

/-- `unrot` (lines 151-217) with a caller-supplied `azeldict`.  The SQL reads
of lines 180-185 are summarized by the `cal` input; the computed-but-unused
`tidx` of lines 176-177 has no observable effect and is omitted.  The
parallactic-angle correction (lines 172-173) writes the caller's array; the
delay-phase correction (lines 192-200) writes the caller's `data['x']`; the
feed rotation (lines 203-214) fills an independent deep copy, and the final
masking step (line 216) raises. -/
noncomputable def unrot (data : VisDataset) (azel : AzelDict) (cal : DelayCal) :
    UnrotOutcome :=
  let chi := chi_correct azel.parallacticAngle
  let pairs := matchedPairs data cal
  let missing := missingIdx data cal
  let dataX := delay_correct pairs (dphGood cal) data.x
  let dataAfter := { data with x := dataX }
  let cdata := { dataAfter with x := rotateX data.nt chi dataX }
  { dataAfter := dataAfter
    azelAfter := chi
    cdata := cdata
    result := maskStep cdata missing }

/-- All-zero source gain state. -/
def srcZ : SrcGainState :=
  { h1 := fun _ _ => 0, h2 := fun _ _ => 0, v1 := fun _ _ => 0,
    v2 := fun _ _ => 0, dcmattn := fun _ _ _ => 0 }

/-- All-zero reference gain state. -/
def refZ : RefGainState :=
  { h1 := fun _ => 0, h2 := fun _ => 0, v1 := fun _ => 0,
    v2 := fun _ => 0, dcmattn := fun _ _ _ => 0 }

/-- Source gain state equal to `refZ` except a 6 dB attenuator-setting
difference on antenna 0, polarization H. -/
def src6 : SrcGainState :=
  { h1 := fun _ _ => 0, h2 := fun _ _ => 0, v1 := fun _ _ => 0,
    v2 := fun _ _ => 0,
    dcmattn := fun i p _ => if i = 0 ∧ p = 0 then 6 else 0 }

/-- A one-frequency (3 GHz), one-time dataset with unit visibilities. -/
def D1 : VisDataset :=
  { time := [0], fghz := [3], nt := 1, x := fun _ => 1,
    px := fun _ _ => 0, py := fun _ _ => 0 }

/-- A one-frequency (1 GHz) dataset whose frequency is absent from `calZ`. -/
def D3 : VisDataset :=
  { time := [0], fghz := [1], nt := 1, x := fun _ => 1,
    px := fun _ _ => 0, py := fun _ _ => 0 }

/-- Geometry with all parallactic angles zero. -/
def A0 : AzelDict := { parallacticAngle := fun _ _ => 0 }

/-- Delay-phase calibration at 3 GHz with all phases zero. -/
def calZ : DelayCal := { fghz := [3], xyphase := fun _ _ => 0 }

/-- Delay-phase calibration at 3 GHz with all phases `π/2`. -/
noncomputable def cal5 : DelayCal :=
  { fghz := [3], xyphase := fun _ _ => Real.pi / 2 }

/-- Folding a loop body over `range n` when iteration `k` only rewrites the
cells whose index is `k`, and rewrites them from their current value: the
result at a cell is a single application of the rewrite `ψ` (or the initial
value if the cell's index is out of range). -/
theorem foldl_range_step {α C : Type} (idx : C → ℕ) (ψ : ℕ → C → α → α)
    (step : (C → α) → ℕ → C → α)
    (hm : ∀ g k c, idx c ≠ k → step g k c = g c)
    (hh : ∀ g k c, idx c = k → step g k c = ψ k c (g c)) :
    ∀ (n : ℕ) (g : C → α) (c : C),
      (List.range n).foldl step g c = if idx c < n then ψ (idx c) c (g c) else g c := by
  intro n
  induction n with
  | zero => intro g c; simp
  | succ n ih =>
    intro g c
    rw [List.range_succ, List.foldl_append, List.foldl_cons, List.foldl_nil]
    by_cases hc : idx c = n
    · rw [hh _ _ _ hc, ih g c, if_neg (by omega), if_pos (by omega), hc]
    · rw [hm _ _ _ hc, ih g c]
      by_cases hlt : idx c < n
      · have hlt1 : idx c < n + 1 := Nat.lt_succ_of_lt hlt
        rw [if_pos hlt, if_pos hlt1]
      · have hlt1 : ¬ idx c < n + 1 := by omega
        rw [if_neg hlt, if_neg hlt1]

/-- Pointwise value of the baseline gain array: slots whose pair has both
antennas below 15 carry the dB-sum gain at the frequency's band, all other
cells (including every slot with an antenna index at or above 15) keep the
`np.zeros` initial value 0. -/
theorem blgainArr_eq (src : SrcGainState) (ref : RefGainState)
    (fghz : List ℚ) (c : Cell) :
    blgainArr src ref fghz c =
      if c.2.1 < 136 ∧ (blPair c.2.1).1 < 15 ∧ (blPair c.2.1).2 < 15 ∧ c.2.2.1 < 4 then
        (10 : ℝ) ^
          ((antgain src ref (blPair c.2.1).1 (polI c.2.2.1) (blist (fghz.getD c.1 0)) c.2.2.2
            + antgain src ref (blPair c.2.1).2 (polJ c.2.2.1) (blist (fghz.getD c.1 0)) c.2.2.2)
            / 20)
      else 0 := by
  have h := foldl_range_step (fun c : Cell => c.2.1)
    (fun k c v =>
      if (blPair k).1 < 15 ∧ (blPair k).2 < 15 ∧ c.2.2.1 < 4 then
        (10 : ℝ) ^
          ((antgain src ref (blPair k).1 (polI c.2.2.1) (blist (fghz.getD c.1 0)) c.2.2.2
            + antgain src ref (blPair k).2 (polJ c.2.2.1) (blist (fghz.getD c.1 0)) c.2.2.2)
            / 20)
      else v)
    (blgainStep src ref fghz)
    (by
      intro g k c hne
      unfold blgainStep
      try simp only []
      rw [if_neg]
      intro hand
      exact hne hand.1)
    (by
      intro g k c heq
      unfold blgainStep
      try simp only []
      by_cases hrest : (blPair k).1 < 15 ∧ (blPair k).2 < 15 ∧ c.2.2.1 < 4
      · rw [if_pos ⟨heq, hrest⟩, if_pos hrest]
      · rw [if_neg (by tauto), if_neg hrest])
    136 (fun _ => 0) c
  unfold blgainArr
  rw [h]
  try simp only []
  by_cases h136 : c.2.1 < 136
  · rw [if_pos h136]
    by_cases hrest : (blPair c.2.1).1 < 15 ∧ (blPair c.2.1).2 < 15 ∧ c.2.2.1 < 4
    · rw [if_pos hrest, if_pos ⟨h136, hrest⟩]
    · rw [if_neg hrest, if_neg (by tauto)]
  · rw [if_neg h136, if_neg (by tauto)]

/-- Component form of `blgainArr_eq`. -/
theorem blgainArr_eq4 (src : SrcGainState) (ref : RefGainState)
    (fghz : List ℚ) (f k p t : ℕ) :
    blgainArr src ref fghz (f, k, p, t) =
      if k < 136 ∧ (blPair k).1 < 15 ∧ (blPair k).2 < 15 ∧ p < 4 then
        (10 : ℝ) ^
          ((antgain src ref (blPair k).1 (polI p) (blist (fghz.getD f 0)) t
            + antgain src ref (blPair k).2 (polJ p) (blist (fghz.getD f 0)) t)
            / 20)
      else 0 :=
  blgainArr_eq src ref fghz (f, k, p, t)

/-- Pointwise value of the delay-phase correction: guarded slots are
multiplied by their delay factor, all other cells are untouched. -/
theorem delay_correct_eq (pairs : List (ℕ × ℕ)) (dph : ℕ → ℕ → ℝ)
    (x : Cell → ℂ) (c : Cell) :
    delay_correct pairs dph x c =
      if c.2.1 < 136 ∧ corr14 c.2.1 then
        x c * delayFactor pairs dph (blPair c.2.1).1 (blPair c.2.1).2 c.2.2.1 c.1
      else x c := by
  have h := foldl_range_step (fun c : Cell => c.2.1)
    (fun k c v =>
      if corr14 k then
        v * delayFactor pairs dph (blPair k).1 (blPair k).2 c.2.2.1 c.1
      else v)
    (delayStep pairs dph)
    (by
      intro g k c hne
      unfold delayStep
      try simp only []
      rw [if_neg]
      intro hand
      exact hne hand.1)
    (by
      intro g k c heq
      unfold delayStep
      try simp only []
      by_cases hg : corr14 k
      · rw [if_pos ⟨heq, hg⟩, if_pos hg]
      · rw [if_neg (by tauto), if_neg hg])
    136 x c
  unfold delay_correct
  rw [h]
  try simp only []
  by_cases h136 : c.2.1 < 136
  · rw [if_pos h136]
    by_cases hg : corr14 c.2.1
    · rw [if_pos hg, if_pos ⟨h136, hg⟩]
    · rw [if_neg hg, if_neg (by tauto)]
  · rw [if_neg h136, if_neg (by tauto)]

/-- Pointwise value of the inner feed-rotation loop at time sample `n`. -/
theorem rotStepN_eq (chi : ℕ → ℕ → ℝ) (X : Cell → ℂ) (g : Cell → ℂ)
    (n : ℕ) (c : Cell) :
    rotStepN chi X g n c =
      if c.2.1 < 136 ∧ c.2.2.2 = n ∧ corr14 c.2.1 then
        rotVal chi X c.1 c.2.1 c.2.2.1 c.2.2.2
      else g c := by
  have h := foldl_range_step (fun c : Cell => c.2.1)
    (fun k c v =>
      if c.2.2.2 = n ∧ corr14 k then rotVal chi X c.1 c.2.1 c.2.2.1 c.2.2.2
      else v)
    (fun g2 k => rotStepK chi X n g2 k)
    (by
      intro g2 k c hne
      unfold rotStepK
      try simp only []
      rw [if_neg]
      intro hand
      exact hne hand.1)
    (by
      intro g2 k c heq
      unfold rotStepK
      try simp only []
      by_cases hg : c.2.2.2 = n ∧ corr14 k
      · rw [if_pos ⟨heq, hg.1, hg.2⟩, if_pos hg]
      · rw [if_neg (by tauto), if_neg hg])
    136 g c
  unfold rotStepN
  rw [h]
  try simp only []
  by_cases h136 : c.2.1 < 136
  · rw [if_pos h136]
    by_cases hg : c.2.2.2 = n ∧ corr14 c.2.1
    · rw [if_pos hg, if_pos ⟨h136, hg⟩]
    · rw [if_neg hg, if_neg (by tauto)]
  · rw [if_neg h136, if_neg (by tauto)]

/-- Component form of `delay_correct_eq`. -/
theorem delay_correct_eq4 (pairs : List (ℕ × ℕ)) (dph : ℕ → ℕ → ℝ)
    (x : Cell → ℂ) (f k p t : ℕ) :
    delay_correct pairs dph x (f, k, p, t) =
      if k < 136 ∧ corr14 k then
        x (f, k, p, t) * delayFactor pairs dph (blPair k).1 (blPair k).2 p f
      else x (f, k, p, t) :=
  delay_correct_eq pairs dph x (f, k, p, t)

/-- Pointwise value of the feed-rotation correction: guarded slots at
in-range time samples are overwritten from the snapshot by the rotation, all
other cells keep the deep-copied snapshot value. -/
theorem rotateX_eq (nt : ℕ) (chi : ℕ → ℕ → ℝ) (X : Cell → ℂ) (c : Cell) :
    rotateX nt chi X c =
      if c.2.2.2 < nt ∧ c.2.1 < 136 ∧ corr14 c.2.1 then
        rotVal chi X c.1 c.2.1 c.2.2.1 c.2.2.2
      else X c := by
  have h := foldl_range_step (fun c : Cell => c.2.2.2)
    (fun n c v =>
      if c.2.1 < 136 ∧ corr14 c.2.1 then rotVal chi X c.1 c.2.1 c.2.2.1 c.2.2.2
      else v)
    (rotStepN chi X)
    (by
      intro g n c hne
      rw [rotStepN_eq]
      try simp only []
      rw [if_neg]
      intro hand
      exact hne hand.2.1)
    (by
      intro g n c heq
      rw [rotStepN_eq]
      try simp only []
      by_cases hg : c.2.1 < 136 ∧ corr14 c.2.1
      · rw [if_pos ⟨hg.1, heq, hg.2⟩, if_pos hg]
      · rw [if_neg (by tauto), if_neg hg])
    nt X c
  unfold rotateX
  rw [h]
  try simp only []
  by_cases hnt : c.2.2.2 < nt
  · rw [if_pos hnt]
    by_cases hg : c.2.1 < 136 ∧ corr14 c.2.1
    · rw [if_pos hg, if_pos ⟨hnt, hg⟩]
    · rw [if_neg hg, if_neg (by tauto)]
  · rw [if_neg hnt, if_neg (by tauto)]

/-- Closed form of the parallactic-angle correction: antennas 8, 9, 10, 12
subtract the original angle of antenna 13, antenna 13 becomes zero, all other
antennas are untouched. -/
theorem chi_correct_eq (chi : ℕ → ℕ → ℝ) (t a : ℕ) :
    chi_correct chi t a =
      if a = 8 ∨ a = 9 ∨ a = 10 ∨ a = 12 then chi t a - chi t 13
      else if a = 13 then 0
      else chi t a := by
  unfold chi_correct
  simp only [List.foldl_cons, List.foldl_nil]
  rcases Decidable.em (a = 8) with h8 | h8
  · subst h8; norm_num
  · rcases Decidable.em (a = 9) with h9 | h9
    · subst h9; norm_num
    · rcases Decidable.em (a = 10) with h10 | h10
      · subst h10; norm_num
      · rcases Decidable.em (a = 12) with h12 | h12
        · subst h12; norm_num
        · rcases Decidable.em (a = 13) with h13 | h13
          · subst h13; norm_num
          · simp [h8, h9, h10, h12, h13]

/-- The all-zero angle table is a fixed point of the correction. -/
theorem chi_correct_zero (t a : ℕ) :
    chi_correct (fun _ _ => (0 : ℝ)) t a = 0 := by
  rw [chi_correct_eq]
  split_ifs <;> norm_num

/-- Wrapping the zero angle gives zero. -/
theorem lobe_zero : lobe 0 = 0 := by
  simp [lobe]

/-- C6 (confirmed): `get_bl_order` returns exactly 136 antenna pairs, all
pairwise distinct, all within the 16-antenna array, covering every unordered
pair (including self-pairs) of the array, and it returns an identical result
on every call. -/
theorem bl_order_count_distinct_cover :
    blOrder.length = 136 ∧
    blOrder.Nodup ∧
    (∀ p ∈ blOrder, p.1 < 16 ∧ p.2 < 16) ∧
    (∀ i : ℕ, i < 16 → ∀ j : ℕ, j < 16 → ((i, j) ∈ blOrder ∨ (j, i) ∈ blOrder)) ∧
    (∀ u v : Unit, get_bl_order u = get_bl_order v) := by
  refine ⟨?_, ?_, ?_, ?_, fun _ _ => rfl⟩ <;> decide

/-- Witness for C6: the hypothesis-bearing conjuncts evaluated at the
concrete pair `(0, 0)` and the concrete antennas `0`, `1`. -/
theorem bl_order_count_distinct_cover_witness :
    ((0, 0) ∈ blOrder → ((0, 0) : ℕ × ℕ).1 < 16 ∧ ((0, 0) : ℕ × ℕ).2 < 16) ∧
    ((0, 1) ∈ blOrder ∨ (1, 0) ∈ blOrder) :=
  ⟨fun h => bl_order_count_distinct_cover.2.2.1 (0, 0) h,
   bl_order_count_distinct_cover.2.2.2.1 0 (by decide) 1 (by decide)⟩

/-- C4 (corrected): the band index computed on line 96 is
`trunc(fghz*2 - 1) - 1` with truncation toward zero (numpy `.astype(int)`),
which for the physical case `fghz*2 - 1 ≥ 0` equals `floor(fghz*2 - 1) - 1`;
it is not `round(fghz*2 - 1) - 1`. -/
theorem blist_trunc_formula :
    ∀ q : ℚ, 0 ≤ q * 2 - 1 → blist q = ⌊q * 2 - 1⌋ - 1 := by
  intro q h
  unfold blist ratTrunc
  rw [if_pos h]

/-- Witness for C4: the truncation formula evaluated at 1.5 GHz. -/
theorem blist_trunc_formula_witness :
    (0 ≤ (3 / 2 : ℚ) * 2 - 1) ∧ blist (3 / 2) = ⌊(3 / 2 : ℚ) * 2 - 1⌋ - 1 :=
  ⟨by norm_num, blist_trunc_formula (3 / 2) (by norm_num)⟩

/-- Counterexample for C4: at `fghz = 1.8` the code's band index is
`trunc(2.6) - 1 = 1`, while the claimed `round(fghz*2 - 1) - 1` is
`round(2.6) - 1 = 2`. -/
theorem blist_round_cex :
    blist (9 / 5) ≠ round ((9 / 5 : ℚ) * 2 - 1) - 1 := by
  have h1 : blist (9 / 5) = 1 := by
    unfold blist ratTrunc
    rw [if_pos (by norm_num)]
    norm_num
  have h2 : round ((9 / 5 : ℚ) * 2 - 1) = 3 := by
    rw [round_eq]
    norm_num
  rw [h1, h2]
  decide

/-- C10 (confirmed): when the caller supplies an `azeldict`, `unrot` rewrites
its `ParallacticAngle` array in place: antennas 8, 9, 10, 12 have the
original angle of reference antenna 13 subtracted at every time sample,
antenna 13 (updated last) becomes exactly zero, other antennas are untouched,
and a second application subtracts the now-zero reference angle. -/
theorem chi_correct_inplace :
    ∀ (azel : AzelDict) (data : VisDataset) (cal : DelayCal) (t a : ℕ),
      ((a = 8 ∨ a = 9 ∨ a = 10 ∨ a = 12) →
        chi_correct azel.parallacticAngle t a =
          azel.parallacticAngle t a - azel.parallacticAngle t 13) ∧
      (chi_correct azel.parallacticAngle t 13 = 0) ∧
      (¬(a = 8 ∨ a = 9 ∨ a = 10 ∨ a = 12 ∨ a = 13) →
        chi_correct azel.parallacticAngle t a = azel.parallacticAngle t a) ∧
      ((unrot data azel cal).azelAfter = chi_correct azel.parallacticAngle) ∧
      ((a = 8 ∨ a = 9 ∨ a = 10 ∨ a = 12) →
        chi_correct (chi_correct azel.parallacticAngle) t a =
          chi_correct azel.parallacticAngle t a - 0) := by
  intro azel data cal t a
  refine ⟨?_, ?_, ?_, rfl, ?_⟩
  · intro h
    rw [chi_correct_eq, if_pos h]
  · rw [chi_correct_eq]
    norm_num
  · intro h
    rw [chi_correct_eq, if_neg (by tauto), if_neg (by tauto)]
  · intro h
    rw [chi_correct_eq (chi_correct azel.parallacticAngle), if_pos h]
    have h13 : chi_correct azel.parallacticAngle t 13 = 0 := by
      rw [chi_correct_eq]; norm_num
    rw [h13]

/-- Witness for C10: the per-antenna formulas evaluated on a concrete
geometry at antennas 8 and 0. -/
theorem chi_correct_inplace_witness :
    (chi_correct A0.parallacticAngle 0 8 =
      A0.parallacticAngle 0 8 - A0.parallacticAngle 0 13) ∧
    (chi_correct A0.parallacticAngle 0 0 = A0.parallacticAngle 0 0) :=
  ⟨(chi_correct_inplace A0 D1 calZ 0 8).1 (Or.inl rfl),
   (chi_correct_inplace A0 D1 calZ 0 0).2.2.1 (by decide)⟩

/-- C8 (confirmed): for matched frequencies the delay-phase step multiplies
polarization product 1 by `exp(i*lobe(dph[i]-dph[j]))`, product 2 by
`exp(i*(-dph[j]+π/2))` and product 3 by `exp(i*(dph[i]-π/2))` on every
baseline with both antennas below 14 and `i ≠ j`, uniformly over the time
axis; product 0 is untouched, unmatched frequencies are untouched, and
auto-baselines or baselines with an antenna at or above 14 are untouched. -/
theorem delay_phase_per_pol :
    ∀ (pairs : List (ℕ × ℕ)) (dph : ℕ → ℕ → ℝ) (x : Cell → ℂ) (f k t fi : ℕ),
      k < 136 → corr14 k →
      ((pairs.find? (fun pr => pr.1 == f) = some (f, fi)) →
        (delay_correct pairs dph x (f, k, 1, t) =
          x (f, k, 1, t) *
            Complex.exp (Complex.I *
              ((lobe (dph (blPair k).1 fi - dph (blPair k).2 fi) : ℝ) : ℂ))) ∧
        (delay_correct pairs dph x (f, k, 2, t) =
          x (f, k, 2, t) *
            Complex.exp (Complex.I *
              (((-(dph (blPair k).2 fi) + Real.pi / 2) : ℝ) : ℂ))) ∧
        (delay_correct pairs dph x (f, k, 3, t) =
          x (f, k, 3, t) *
            Complex.exp (Complex.I *
              (((dph (blPair k).1 fi - Real.pi / 2) : ℝ) : ℂ)))) ∧
      (delay_correct pairs dph x (f, k, 0, t) = x (f, k, 0, t)) ∧
      ((pairs.find? (fun pr => pr.1 == f) = none) →
        ∀ p, delay_correct pairs dph x (f, k, p, t) = x (f, k, p, t)) ∧
      (∀ ko p, ¬ corr14 ko →
        delay_correct pairs dph x (f, ko, p, t) = x (f, ko, p, t)) := by
  intro pairs dph x f k t fi hk hc
  refine ⟨?_, ?_, ?_, ?_⟩
  · intro hfind
    refine ⟨?_, ?_, ?_⟩ <;>
    · rw [delay_correct_eq, if_pos ⟨hk, hc⟩]
      unfold delayFactor
      rw [hfind]
      norm_num
  · rw [delay_correct_eq, if_pos ⟨hk, hc⟩]
    unfold delayFactor
    cases hfind : pairs.find? (fun pr => pr.1 == f) with
    | none => simp
    | some pr => norm_num
  · intro hnone p
    rw [delay_correct_eq]
    by_cases hg : (f, k, p, t).2.1 < 136 ∧ corr14 (f, k, p, t).2.1
    · rw [if_pos hg]
      unfold delayFactor
      rw [hnone]
      simp
    · rw [if_neg hg]
  · intro ko p hno
    rw [delay_correct_eq, if_neg (by tauto)]

/-- Witness for C8: the product-1 formula evaluated on a concrete matched
frequency, baseline slot 1 (antenna pair (0, 1)) and zero phases. -/
theorem delay_phase_per_pol_witness :
    delay_correct [(0, 0)] (fun _ _ => (0 : ℝ)) (fun _ => (1 : ℂ)) (0, 1, 1, 0) =
      1 * Complex.exp (Complex.I * ((lobe (0 - 0) : ℝ) : ℂ)) :=
  ((delay_phase_per_pol [(0, 0)] (fun _ _ => 0) (fun _ => 1) 0 1 0 0
    (by decide) (by decide)).1 (by decide)).1

/-- Component form of `rotateX_eq`. -/
theorem rotateX_eq4 (nt : ℕ) (chi : ℕ → ℕ → ℝ) (X : Cell → ℂ)
    (f k p t : ℕ) :
    rotateX nt chi X (f, k, p, t) =
      if t < nt ∧ k < 136 ∧ corr14 k then rotVal chi X f k p t
      else X (f, k, p, t) :=
  rotateX_eq nt chi X (f, k, p, t)

/-- Polarization indices above 3 fall through every branch of the rotation
assignment and keep the snapshot value. -/
theorem rotVal_other (chi : ℕ → ℕ → ℝ) (X : Cell → ℂ) (f k p n : ℕ)
    (hp : 3 < p) : rotVal chi X f k p n = X (f, k, p, n) := by
  have g0 : ¬(p = 0) := by omega
  have g2 : ¬(p = 2) := by omega
  have g3 : ¬(p = 3) := by omega
  have g1 : ¬(p = 1) := by omega
  unfold rotVal
  rw [if_neg g0, if_neg g2, if_neg g3, if_neg g1]

/-- C9 (confirmed): the feed-rotation step is, per baseline and time sample,
a linear transform of the four polarization products that is inverted by
applying the same transform with `dchi` negated (i.e. with the negated angle
table): the round trip recovers every input cell exactly, and the transform
is linear in the input array. -/
theorem rotation_roundtrip_linear :
    ∀ (nt : ℕ) (chi : ℕ → ℕ → ℝ) (X Y : Cell → ℂ) (a b : ℂ) (f k p t : ℕ),
      rotateX nt (fun n an => -(chi n an)) (rotateX nt chi X) (f, k, p, t) =
        X (f, k, p, t) ∧
      rotateX nt chi (fun d => a * X d + b * Y d) (f, k, p, t) =
        a * rotateX nt chi X (f, k, p, t) + b * rotateX nt chi Y (f, k, p, t) := by
  intro nt chi X Y a b f k p t
  constructor
  · rw [rotateX_eq4]
    by_cases hg : t < nt ∧ k < 136 ∧ corr14 k
    · rw [if_pos hg]
      have hX : ∀ q, rotateX nt chi X (f, k, q, t) = rotVal chi X f k q t := by
        intro q
        rw [rotateX_eq4, if_pos hg]
      have h0 : rotateX nt chi X (f, k, 0, t) =
          X (f, k, 0, t) * ((Real.cos (chi t (blPair k).1 - chi t (blPair k).2) : ℝ) : ℂ)
            + X (f, k, 3, t) * ((Real.sin (chi t (blPair k).1 - chi t (blPair k).2) : ℝ) : ℂ) := by
        rw [hX 0]; unfold rotVal; rw [if_pos rfl]
      have h1 : rotateX nt chi X (f, k, 1, t) =
          X (f, k, 1, t) * ((Real.cos (chi t (blPair k).1 - chi t (blPair k).2) : ℝ) : ℂ)
            - X (f, k, 2, t) * ((Real.sin (chi t (blPair k).1 - chi t (blPair k).2) : ℝ) : ℂ) := by
        rw [hX 1]; unfold rotVal
        rw [if_neg (by decide), if_neg (by decide), if_neg (by decide), if_pos rfl]
      have h2 : rotateX nt chi X (f, k, 2, t) =
          X (f, k, 2, t) * ((Real.cos (chi t (blPair k).1 - chi t (blPair k).2) : ℝ) : ℂ)
            + X (f, k, 1, t) * ((Real.sin (chi t (blPair k).1 - chi t (blPair k).2) : ℝ) : ℂ) := by
        rw [hX 2]; unfold rotVal
        rw [if_neg (by decide), if_pos rfl]
      have h3 : rotateX nt chi X (f, k, 3, t) =
          X (f, k, 3, t) * ((Real.cos (chi t (blPair k).1 - chi t (blPair k).2) : ℝ) : ℂ)
            - X (f, k, 0, t) * ((Real.sin (chi t (blPair k).1 - chi t (blPair k).2) : ℝ) : ℂ) := by
        rw [hX 3]; unfold rotVal
        rw [if_neg (by decide), if_neg (by decide), if_pos rfl]
      have hsc : ((Real.sin (chi t (blPair k).1 - chi t (blPair k).2) : ℝ) : ℂ) ^ 2 +
          ((Real.cos (chi t (blPair k).1 - chi t (blPair k).2) : ℝ) : ℂ) ^ 2 = 1 := by
        exact_mod_cast Real.sin_sq_add_cos_sq (chi t (blPair k).1 - chi t (blPair k).2)
      unfold rotVal
      have hb : (fun n an => -(chi n an)) t (blPair k).1 - (fun n an => -(chi n an)) t (blPair k).2
          = -(chi t (blPair k).1 - chi t (blPair k).2) := by
        simp only []; ring
      rw [hb, Real.cos_neg, Real.sin_neg, Complex.ofReal_neg]
      rcases p with _ | _ | _ | _ | p
      · rw [if_pos rfl, h0, h3]
        linear_combination (X (f, k, 0, t)) * hsc
      · rw [if_neg (by decide), if_neg (by decide), if_neg (by decide), if_pos rfl, h1, h2]
        linear_combination (X (f, k, 1, t)) * hsc
      · rw [if_neg (by decide), if_pos rfl, h2, h1]
        linear_combination (X (f, k, 2, t)) * hsc
      · rw [if_neg (by decide), if_neg (by decide), if_pos rfl, h3, h0]
        linear_combination (X (f, k, 3, t)) * hsc
      · have g0 : ¬(p + 4 = 0) := by omega
        have g2 : ¬(p + 4 = 2) := by omega
        have g3 : ¬(p + 4 = 3) := by omega
        have g1 : ¬(p + 4 = 1) := by omega
        rw [if_neg g0, if_neg g2, if_neg g3, if_neg g1, hX (p + 4),
          rotVal_other chi X f k (p + 4) t (by omega)]
    · rw [if_neg hg, rotateX_eq4, if_neg hg]
  · rw [rotateX_eq4, rotateX_eq4, rotateX_eq4]
    by_cases hg : t < nt ∧ k < 136 ∧ corr14 k
    · rw [if_pos hg, if_pos hg, if_pos hg]
      unfold rotVal
      rcases p with _ | _ | _ | _ | p
      · rw [if_pos rfl, if_pos rfl, if_pos rfl]
        simp only []
        ring
      · rw [if_neg (by decide), if_neg (by decide), if_neg (by decide), if_pos rfl,
          if_neg (by decide), if_neg (by decide), if_neg (by decide), if_pos rfl,
          if_neg (by decide), if_neg (by decide), if_neg (by decide), if_pos rfl]
        simp only []
        ring
      · rw [if_neg (by decide), if_pos rfl, if_neg (by decide), if_pos rfl,
          if_neg (by decide), if_pos rfl]
        simp only []
        ring
      · rw [if_neg (by decide), if_neg (by decide), if_pos rfl,
          if_neg (by decide), if_neg (by decide), if_pos rfl,
          if_neg (by decide), if_neg (by decide), if_pos rfl]
        simp only []
        ring
      · have g0 : ¬(p + 4 = 0) := by omega
        have g2 : ¬(p + 4 = 2) := by omega
        have g3 : ¬(p + 4 = 3) := by omega
        have g1 : ¬(p + 4 = 1) := by omega
        rw [if_neg g0, if_neg g2, if_neg g3, if_neg g1, if_neg g0, if_neg g2,
          if_neg g3, if_neg g1, if_neg g0, if_neg g2, if_neg g3, if_neg g1]
    · rw [if_neg hg, if_neg hg, if_neg hg]

/-- Unfolding of the `x` update of `apply_attn_corr` at one cell
(line 111: `cdata['x'] *= blgain[:,:,:,idx]`). -/
theorem attn_x_eq (src : SrcGainState) (ref : RefGainState) (tmap : ℕ → ℕ)
    (data : VisDataset) (f k p t : ℕ) :
    (apply_attn_corr src ref tmap data).x (f, k, p, t) =
      data.x (f, k, p, t) *
        ((blgainArr src ref data.fghz (f, k, p, tmap t) : ℝ) : ℂ) := rfl

/-- When the source gain state equals the reference gain state, every antenna
gain is zero. -/
theorem antgain_eq_zero (src : SrcGainState) (ref : RefGainState)
    (hh1 : ∀ i t, src.h1 i t = ref.h1 i) (hh2 : ∀ i t, src.h2 i t = ref.h2 i)
    (hv1 : ∀ i t, src.v1 i t = ref.v1 i) (hv2 : ∀ i t, src.v2 i t = ref.v2 i)
    (hd : ∀ i p b, src.dcmattn i p b = ref.dcmattn i p b) :
    ∀ i p b t, antgain src ref i p b t = 0 := by
  intro i p b t
  unfold antgain
  split_ifs
  · rw [hh1, hh2, hd]; ring
  · rw [hv1, hv2, hd]; ring

/-- The all-zero source state trivially matches the all-zero reference. -/
theorem srcZ_h1_eq : ∀ i t, srcZ.h1 i t = refZ.h1 i := fun _ _ => rfl

/-- Second component table of the zero states. -/
theorem srcZ_h2_eq : ∀ i t, srcZ.h2 i t = refZ.h2 i := fun _ _ => rfl

/-- First V component table of the zero states. -/
theorem srcZ_v1_eq : ∀ i t, srcZ.v1 i t = refZ.v1 i := fun _ _ => rfl

/-- Second V component table of the zero states. -/
theorem srcZ_v2_eq : ∀ i t, srcZ.v2 i t = refZ.v2 i := fun _ _ => rfl

/-- Attenuator settings of the zero states. -/
theorem srcZ_dcm_eq : ∀ i p b, srcZ.dcmattn i p b = refZ.dcmattn i p b :=
  fun _ _ _ => rfl

/-- Baseline slot 1 is in range. -/
theorem k1_lt : (1 : ℕ) < 136 := by norm_num

/-- First antenna of baseline slot 1 is below 15. -/
theorem blPair1_fst : (blPair 1).1 < 15 := by decide

/-- Second antenna of baseline slot 1 is below 15. -/
theorem blPair1_snd : (blPair 1).2 < 15 := by decide

/-- Polarization product 0 is one of the four products. -/
theorem pol0_lt : (0 : ℕ) < 4 := by norm_num

/-- Baseline slot 1 carries the antenna pair (0, 1). -/
theorem blPair1_val : blPair 1 = (0, 1) := by decide

/-- C2 (corrected): when the source gain state over the dataset's time range
equals the reference gain state (all of `h1`, `h2`, `v1`, `v2`, `dcmattn`),
the output of `apply_attn_corr` equals the input at every cross-correlation
cell whose baseline has both antennas below 15, and `px`, `py`, `time`,
`fghz` are unchanged — but the cross-correlation of every baseline whose
pair includes an antenna index at or above 15 is multiplied by the
`np.zeros` initial gain 0, not by a neutral factor. -/
theorem apply_attn_corr_equal_gain_states :
    ∀ (src : SrcGainState) (ref : RefGainState) (tmap : ℕ → ℕ) (data : VisDataset),
      (∀ i t, src.h1 i t = ref.h1 i) → (∀ i t, src.h2 i t = ref.h2 i) →
      (∀ i t, src.v1 i t = ref.v1 i) → (∀ i t, src.v2 i t = ref.v2 i) →
      (∀ i p b, src.dcmattn i p b = ref.dcmattn i p b) →
      (∀ f k p t, k < 136 → (blPair k).1 < 15 → (blPair k).2 < 15 → p < 4 →
        (apply_attn_corr src ref tmap data).x (f, k, p, t) = data.x (f, k, p, t)) ∧
      (∀ f k p t, ¬(k < 136 ∧ (blPair k).1 < 15 ∧ (blPair k).2 < 15 ∧ p < 4) →
        (apply_attn_corr src ref tmap data).x (f, k, p, t) = 0) ∧
      ((apply_attn_corr src ref tmap data).px = data.px) ∧
      ((apply_attn_corr src ref tmap data).py = data.py) ∧
      ((apply_attn_corr src ref tmap data).time = data.time) ∧
      ((apply_attn_corr src ref tmap data).fghz = data.fghz) ∧
      ((apply_attn_corr src ref tmap data).nt = data.nt) := by
  intro src ref tmap data hh1 hh2 hv1 hv2 hd
  have hz := antgain_eq_zero src ref hh1 hh2 hv1 hv2 hd
  have hF : ∀ s a p tg, antgainF src ref data.fghz s a p tg = 1 := by
    intro s a p tg
    unfold antgainF
    rw [hz]
    norm_num
  refine ⟨?_, ?_, ?_, ?_, rfl, rfl, rfl⟩
  · intro f k p t hk hi hj hp
    rw [attn_x_eq, blgainArr_eq4, if_pos ⟨hk, hi, hj, hp⟩, hz, hz]
    norm_num
  · intro f k p t hno
    rw [attn_x_eq, blgainArr_eq4, if_neg hno]
    norm_num
  · funext fl t
    show data.px fl t * _ = data.px fl t
    split_ifs
    · rw [hF, mul_one]
    · rw [hF, one_pow, mul_one]
    · rw [mul_one]
  · funext fl t
    show data.py fl t * _ = data.py fl t
    split_ifs
    · rw [hF, mul_one]
    · rw [hF, one_pow, mul_one]
    · rw [mul_one]

/-- Witness for C2 (amended): with all-zero (hence equal) gain states the
cross-correlation of baseline slot 1 (pair (0, 1)) is returned unchanged. -/
theorem apply_attn_corr_equal_gain_states_witness :
    (apply_attn_corr srcZ refZ (fun t => t) D1).x (0, 1, 0, 0) = D1.x (0, 1, 0, 0) :=
  (apply_attn_corr_equal_gain_states srcZ refZ (fun t => t) D1
    srcZ_h1_eq srcZ_h2_eq srcZ_v1_eq srcZ_v2_eq
    srcZ_dcm_eq).1 0 1 0 0 k1_lt blPair1_fst blPair1_snd pol0_lt

/-- Counterexample for C2: with identical (all-zero) source and reference
gain states, baseline slot 99 carries the antenna pair (7, 15), whose second
index is not below 15; its unit visibility is multiplied by gain 0 and comes
back 0, not unchanged. -/
theorem apply_attn_corr_ant15_zero_cex :
    (apply_attn_corr srcZ refZ (fun t => t) D1).x (0, 99, 0, 0) ≠ D1.x (0, 99, 0, 0) := by
  rw [attn_x_eq, blgainArr_eq4, if_neg (by decide)]
  norm_num [D1]

/-- C7 (confirmed): for every baseline from the baseline order with both
antennas below 15, `apply_attn_corr` scales the cross-correlation by
`10 ** ((antgain[i, pol_i, band] + antgain[j, pol_j, band]) / 20)` with the
product convention HH: i-H,j-H; VV: i-V,j-V; HV: i-H,j-V; VH: i-V,j-H
(encoded by `polI`/`polJ`); consequently a 6 dB attenuator-setting
difference on one antenna/polarization with all component tables and all
other attenuator settings equal yields the exact amplitude factor
`10 ** (6/20)` on the corresponding baseline and polarization products. -/
theorem blgain_formula_6db :
    (∀ (src : SrcGainState) (ref : RefGainState) (tmap : ℕ → ℕ)
        (data : VisDataset) (f k p t : ℕ),
      k < 136 → (blPair k).1 < 15 → (blPair k).2 < 15 → p < 4 →
      (apply_attn_corr src ref tmap data).x (f, k, p, t) =
        data.x (f, k, p, t) *
          (((10 : ℝ) ^
            ((antgain src ref (blPair k).1 (polI p) (blist (data.fghz.getD f 0)) (tmap t)
              + antgain src ref (blPair k).2 (polJ p) (blist (data.fghz.getD f 0)) (tmap t))
              / 20) : ℝ) : ℂ)) ∧
    (∀ (src : SrcGainState) (ref : RefGainState) (tmap : ℕ → ℕ)
        (data : VisDataset) (i0 p0 f k p t j : ℕ),
      (∀ i t2, src.h1 i t2 = ref.h1 i) → (∀ i t2, src.h2 i t2 = ref.h2 i) →
      (∀ i t2, src.v1 i t2 = ref.v1 i) → (∀ i t2, src.v2 i t2 = ref.v2 i) →
      (∀ i pq b, ¬(i = i0 ∧ pq = p0) → src.dcmattn i pq b = ref.dcmattn i pq b) →
      (∀ b, src.dcmattn i0 p0 b = ref.dcmattn i0 p0 b + 6) →
      blPair k = (i0, j) → k < 136 → i0 < 15 → j < 15 → j ≠ i0 → p < 4 →
      polI p = p0 →
      (apply_attn_corr src ref tmap data).x (f, k, p, t) =
        data.x (f, k, p, t) * (((10 : ℝ) ^ ((6 : ℝ) / 20) : ℝ) : ℂ)) := by
  constructor
  · intro src ref tmap data f k p t hk hi hj hp
    rw [attn_x_eq, blgainArr_eq4, if_pos ⟨hk, hi, hj, hp⟩]
  · intro src ref tmap data i0 p0 f k p t j hh1 hh2 hv1 hv2 hdo hd6 hbl hk hi0 hj hji hp hpol
    rw [attn_x_eq, blgainArr_eq4, hbl, if_pos ⟨hk, hi0, hj, hp⟩]
    show data.x (f, k, p, t) *
        (((10 : ℝ) ^
          ((antgain src ref i0 (polI p) (blist (data.fghz.getD f 0)) (tmap t)
            + antgain src ref j (polJ p) (blist (data.fghz.getD f 0)) (tmap t))
            / 20) : ℝ) : ℂ) = _
    have hpI : polI p = 0 ∨ polI p = 1 := by
      unfold polI; split_ifs <;> simp
    have hp0 : p0 = 0 ∨ p0 = 1 := by
      rw [← hpol]; exact hpI
    have hga : antgain src ref i0 (polI p) (blist (data.fghz.getD f 0)) (tmap t) = 6 := by
      rw [hpol]
      rcases hp0 with h | h <;> subst h
      · unfold antgain
        rw [if_pos rfl, hh1, hh2, hd6]
        ring
      · unfold antgain
        rw [if_neg (by decide), hv1, hv2, hd6]
        ring
    have hgb : antgain src ref j (polJ p) (blist (data.fghz.getD f 0)) (tmap t) = 0 := by
      have hq : polJ p = 0 ∨ polJ p = 1 := by
        unfold polJ; split_ifs <;> simp
      rcases hq with h | h <;> rw [h]
      · unfold antgain
        rw [if_pos rfl, hh1, hh2, hdo j 0 _ (fun hcon => hji hcon.1)]
        ring
      · unfold antgain
        rw [if_neg (by decide), hv1, hv2, hdo j 1 _ (fun hcon => hji hcon.1)]
        ring
    rw [hga, hgb]
    norm_num

/-- The H components of `src6` match the zero reference. -/
theorem src6_h1_eq : ∀ i t, src6.h1 i t = refZ.h1 i := fun _ _ => rfl

/-- Second H component table of `src6`. -/
theorem src6_h2_eq : ∀ i t, src6.h2 i t = refZ.h2 i := fun _ _ => rfl

/-- First V component table of `src6`. -/
theorem src6_v1_eq : ∀ i t, src6.v1 i t = refZ.v1 i := fun _ _ => rfl

/-- Second V component table of `src6`. -/
theorem src6_v2_eq : ∀ i t, src6.v2 i t = refZ.v2 i := fun _ _ => rfl

/-- Witness for C7: a 6 dB `dcmattn` difference on antenna 0, polarization H,
scales the HH product of baseline slot 1 (pair (0, 1)) by exactly
`10 ** (6/20)`. -/
theorem blgain_formula_6db_witness :
    (apply_attn_corr src6 refZ (fun t => t) D1).x (0, 1, 0, 0) =
      D1.x (0, 1, 0, 0) * (((10 : ℝ) ^ ((6 : ℝ) / 20) : ℝ) : ℂ) :=
  blgain_formula_6db.2 src6 refZ (fun t => t) D1 0 0 0 1 0 0 1
    src6_h1_eq src6_h2_eq src6_v1_eq src6_v2_eq
    (fun i pq b hne => by
      show (if i = 0 ∧ pq = 0 then (6 : ℝ) else 0) = 0
      rw [if_neg hne])
    (fun b => by
      show (if (0 : ℕ) = 0 ∧ (0 : ℕ) = 0 then (6 : ℝ) else 0) = 0 + 6
      rw [if_pos ⟨rfl, rfl⟩]
      norm_num)
    blPair1_val k1_lt (by norm_num) (by norm_num) one_ne_zero pol0_lt rfl

/-- Evaluation of the delay-phase correction of `unrot` on the concrete
dataset `D1` with zero delay phases: the matched frequency is index 0, and
the polarization-2 product of baseline slot 1 is multiplied by
`exp(i*(-0 + π/2)) = i`. -/
theorem delayD1_val :
    delay_correct (matchedPairs D1 calZ) (dphGood calZ) D1.x (0, 1, 2, 0) =
      Complex.I := by
  have h3 : roundKey4 3 = 30000 := by norm_num [roundKey4, round_eq]
  have hm : matchedPairs D1 calZ = [(0, 0)] := by
    simp [matchedPairs, common_val_idx, calFghzGood, goodFreqIdx, D1, calZ, h3,
      List.range_succ]
  rw [delay_correct_eq4, if_pos ⟨by decide, by decide⟩, hm]
  unfold delayFactor
  have hfind : (([((0 : ℕ), (0 : ℕ))]).find? (fun pr => pr.1 == 0)) = some (0, 0) := by
    decide
  rw [hfind]
  show D1.x (0, 1, 2, 0) *
      Complex.exp (Complex.I *
        (((-(dphGood calZ (blPair 1).2 0) + Real.pi / 2 : ℝ)) : ℂ)) = Complex.I
  have hd : dphGood calZ (blPair 1).2 0 = 0 := rfl
  rw [hd]
  have hsimp : (-(0 : ℝ) + Real.pi / 2) = Real.pi / 2 := by ring
  rw [hsimp]
  have hx : D1.x (0, 1, 2, 0) = 1 := rfl
  rw [hx, one_mul, mul_comm, Complex.exp_mul_I, ← Complex.ofReal_cos,
    ← Complex.ofReal_sin, Real.cos_pi_div_two, Real.sin_pi_div_two]
  simp

/-- C1 (corrected): `unrot` does not leave the caller's dataset intact: the
fields `time`, `fghz`, `px`, `py` are unchanged, but the input's `x` array is
multiplied in place by the delay-phase factors (lines 198-200 act on
`data['x']` before the deep copy of line 203), and the call terminates with a
`TypeError` from the masking step instead of returning the corrected copy. -/
theorem unrot_mutates_input_delay_phase :
    ∀ (data : VisDataset) (azel : AzelDict) (cal : DelayCal),
      ((unrot data azel cal).dataAfter.time = data.time) ∧
      ((unrot data azel cal).dataAfter.fghz = data.fghz) ∧
      ((unrot data azel cal).dataAfter.nt = data.nt) ∧
      ((unrot data azel cal).dataAfter.px = data.px) ∧
      ((unrot data azel cal).dataAfter.py = data.py) ∧
      (∀ f k p t,
        (unrot data azel cal).dataAfter.x (f, k, p, t) =
          if k < 136 ∧ corr14 k then
            data.x (f, k, p, t) *
              delayFactor (matchedPairs data cal) (dphGood cal)
                (blPair k).1 (blPair k).2 p f
          else data.x (f, k, p, t)) ∧
      ((unrot data azel cal).result = Except.error maskErr) := by
  intro data azel cal
  refine ⟨rfl, rfl, rfl, rfl, rfl, ?_, rfl⟩
  intro f k p t
  exact delay_correct_eq4 (matchedPairs data cal) (dphGood cal) data.x f k p t

/-- Counterexample for C1: on the concrete dataset `D1` (matched frequency,
zero delay phases, unit visibilities), the caller's `x` at frequency 0,
baseline slot 1, polarization product 2, time 0 is `i` after the call — it
was mutated in place, so it no longer equals its value 1 before the call. -/
theorem unrot_input_mutation_cex :
    (unrot D1 A0 calZ).dataAfter.x (0, 1, 2, 0) ≠ D1.x (0, 1, 2, 0) := by
  have h : (unrot D1 A0 calZ).dataAfter.x (0, 1, 2, 0) = Complex.I := delayD1_val
  rw [h]
  have h1 : D1.x (0, 1, 2, 0) = 1 := rfl
  rw [h1]
  simp [Complex.ext_iff]

/-- C3 (code_bug): the masking step of line 216,
`cdata[missing] = np.ma.masked`, is a dictionary item assignment whose key is
a numpy integer array; arrays are unhashable, so every call of `unrot` raises
`TypeError` there instead of masking the missing frequencies and returning.
On the concrete dataset `D3` the 1 GHz frequency is correctly recorded as
missing (index 0) before the failing assignment. -/
theorem unrot_masking_type_error :
    (∀ (data : VisDataset) (azel : AzelDict) (cal : DelayCal),
      (unrot data azel cal).result = Except.error maskErr) ∧
    (missingIdx D3 calZ = [0]) := by
  constructor
  · intro data azel cal
    rfl
  · have h3 : roundKey4 3 = 30000 := by norm_num [roundKey4, round_eq]
    have h1 : roundKey4 1 = 10000 := by norm_num [roundKey4, round_eq]
    simp [missingIdx, matchedPairs, common_val_idx, calFghzGood, goodFreqIdx,
      D3, calZ, h3, h1, List.range_succ]

/-- C5 (corrected): if the corrected parallactic angles give `dchi = 0` on
every corrected baseline and time sample and the delay phases of all
corrected antennas are `π/2` at every matched calibration frequency (so that
all three delay-phase angles `a1`, `a2`, `a3` vanish — equal phases alone
leave `a2 = -dph+π/2` and `a3 = dph-π/2` nonzero), then the corrected `x`
array computed by `unrot` (the deep copy built by lines 203-214, before the
failing masking step) equals the input `x` array at every cell. -/
theorem unrot_identity_conditions :
    ∀ (data : VisDataset) (azel : AzelDict) (cal : DelayCal),
      (∀ n i j, i < 14 → j < 14 → i ≠ j →
        chi_correct azel.parallacticAngle n i =
          chi_correct azel.parallacticAngle n j) →
      (∀ a m, a < 14 → dphGood cal a m = Real.pi / 2) →
      ∀ f k p t,
        (unrot data azel cal).cdata.x (f, k, p, t) = data.x (f, k, p, t) := by
  intro data azel cal hchi hdph f k p t
  have hdelay : ∀ f2 k2 p2 t2,
      delay_correct (matchedPairs data cal) (dphGood cal) data.x (f2, k2, p2, t2) =
        data.x (f2, k2, p2, t2) := by
    intro f2 k2 p2 t2
    rw [delay_correct_eq4]
    by_cases hg : k2 < 136 ∧ corr14 k2
    · rw [if_pos hg]
      have hfac : delayFactor (matchedPairs data cal) (dphGood cal)
          (blPair k2).1 (blPair k2).2 p2 f2 = 1 := by
        unfold delayFactor
        cases hfind : (matchedPairs data cal).find? (fun pr => pr.1 == f2) with
        | none => rfl
        | some pr =>
          try simp only []
          obtain ⟨hi14, hj14, hne⟩ := hg.2
          rw [hdph ((blPair k2).1) pr.2 hi14, hdph ((blPair k2).2) pr.2 hj14]
          have e1 : Real.pi / 2 - Real.pi / 2 = 0 := by ring
          have e2 : -(Real.pi / 2) + Real.pi / 2 = 0 := by ring
          rw [e1, e2, lobe_zero]
          split_ifs <;> simp
      rw [hfac, mul_one]
    · rw [if_neg hg]
  show rotateX data.nt (chi_correct azel.parallacticAngle)
      (delay_correct (matchedPairs data cal) (dphGood cal) data.x) (f, k, p, t) =
      data.x (f, k, p, t)
  rw [rotateX_eq4]
  by_cases hg : t < data.nt ∧ k < 136 ∧ corr14 k
  · rw [if_pos hg]
    obtain ⟨hi14, hj14, hne⟩ := hg.2.2
    have hzero : chi_correct azel.parallacticAngle t (blPair k).1 -
        chi_correct azel.parallacticAngle t (blPair k).2 = 0 := by
      rw [hchi t _ _ hi14 hj14 hne]
      ring
    unfold rotVal
    rw [hzero, Real.cos_zero, Real.sin_zero]
    split_ifs with e0 e2 e3 e1
    · subst e0; rw [hdelay, hdelay]; simp
    · subst e2; rw [hdelay, hdelay]; simp
    · subst e3; rw [hdelay, hdelay]; simp
    · subst e1; rw [hdelay, hdelay]; simp
    · exact hdelay f k p t
  · rw [if_neg hg]
    exact hdelay f k p t

/-- Witness for C5 (amended): with zero parallactic angles and all delay
phases `π/2`, the corrected copy equals the input at a concrete cell. -/
theorem unrot_identity_conditions_witness :
    (unrot D1 A0 cal5).cdata.x (0, 1, 1, 0) = D1.x (0, 1, 1, 0) :=
  unrot_identity_conditions D1 A0 cal5
    (fun n i j _ _ _ => by
      show chi_correct (fun _ _ => (0 : ℝ)) n i =
        chi_correct (fun _ _ => (0 : ℝ)) n j
      rw [chi_correct_zero, chi_correct_zero])
    (fun a m _ => rfl)
    0 1 1 0

/-- Counterexample for C5: with zero delay phases (so all pairwise delay
phase differences vanish) and zero parallactic angles (so `dchi = 0`
everywhere), the corrected copy's polarization-2 product of baseline slot 1
is `exp(i*(-0+π/2)) = i`, not the input value 1: zero phase differences do
not make the delay-phase step trivial. -/
theorem unrot_identity_cex :
    (unrot D1 A0 calZ).cdata.x (0, 1, 2, 0) ≠ D1.x (0, 1, 2, 0) := by
  have hc : (unrot D1 A0 calZ).cdata.x (0, 1, 2, 0) = Complex.I := by
    show rotateX D1.nt (chi_correct A0.parallacticAngle)
        (delay_correct (matchedPairs D1 calZ) (dphGood calZ) D1.x) (0, 1, 2, 0) =
        Complex.I
    rw [rotateX_eq4, if_pos ⟨by decide, by decide, by decide⟩]
    unfold rotVal
    rw [if_neg (by decide), if_pos rfl]
    have hz : chi_correct A0.parallacticAngle 0 (blPair 1).1 -
        chi_correct A0.parallacticAngle 0 (blPair 1).2 = 0 := by
      show chi_correct (fun _ _ => (0 : ℝ)) 0 (blPair 1).1 -
          chi_correct (fun _ _ => (0 : ℝ)) 0 (blPair 1).2 = 0
      rw [chi_correct_zero, chi_correct_zero]
      ring
    rw [hz, Real.cos_zero, Real.sin_zero, delayD1_val]
    norm_num
  rw [hc]
  have h1 : D1.x (0, 1, 2, 0) = 1 := rfl
  rw [h1]
  simp [Complex.ext_iff]
